import Mathlib

/-!
Shallow embedding of the arana MySQL front-end command dispatcher
(`pkg/mysql/execute_handle.go`), the `CastFunction` AST node
(`pkg/runtime/ast/function.go`) and the `SIN` scalar function
(`pkg/runtime/function/sin.go`), together with theorems settling the
frozen claims about them.

Collaborators that are not part of the repository sources under `src/`
(the executor, the SQL parser, the hint parser, the tenant manager, the
`Conn` packet writers and the tiny byte readers) are modelled as explicit
parameters or minimal functions, each documented at its declaration.
Packet writing is modelled as appending a `Packet` value to an emission
trace; a write-failure oracle decides whether each physical write
succeeds, so the error paths of the Go code stay visible.
-/

set_option autoImplicit false

/-- Errors crossing the dispatcher boundary: either a MySQL SQL error
carrying a code, an SQL state and a message (`errors.NewSQLError`), or a
plain Go error with a message. -/
inductive GoError where
  | sql (code : Nat) (sqlState : String) (msg : String)
  | generic (msg : String)
  deriving DecidableEq

/-- MySQL error code `ER_BAD_DB_ERROR` (constants package is outside
`src/`; the value 1049 is fixed by the spec scenario S2). -/
def ERBadDb : Nat := 1049

/-- MySQL error code `ER_BAD_NULL_ERROR` (constants package is outside
`src/`). -/
def ERBadNullError : Nat := 1048

/-- MySQL error code `ER_UNKNOWN_COM_ERROR` (constants package is outside
`src/`). -/
def ERUnknownComError : Nat := 1047

/-- MySQL SQL state `SSUnknownSQLState` ("HY000"). -/
def SSUnknownSQLState : String := "HY000"

/-- MySQL SQL state `SSUnknownComError` ("08S01"). -/
def SSUnknownComError : String := "08S01"

/-- Status-flag bit `SERVER_MORE_RESULTS_EXISTS` (0x0008). -/
def serverMoreResultsExists : Nat := 8

/-- Capability bit `CLIENT_MULTI_STATEMENTS` (1 <<< 16). -/
def capabilityClientMultiStatements : Nat := 65536

/-- Go `a &^ b` on 32-bit words: keep the bits of `a` where `b` is zero. -/
def goAndNot32 (a b : Nat) : Nat := a &&& (4294967295 ^^^ b)

/-- Ordered column metadata; fields are abstracted to their names, the
only feature the embedded handlers inspect. -/
abbrev GoField := String

/-- A `proto.Dataset`: column metadata plus streamable rows; the rows are
opaque to the dispatcher, which only forwards them to the row writers. -/
structure GoDataset where
  fields : List GoField
  deriving DecidableEq

/-- A `proto.Result` handle as consumed by the dispatcher: the pair
returned by `result.Dataset()` plus the affected-row counters. -/
structure GoResult where
  dataset : Option GoDataset × Option GoError
  rowsAffected : Nat
  lastInsertId : Nat
  deriving DecidableEq

/-- Per-connection mutable state owned by the dispatcher task. -/
structure Conn where
  schema : String
  capabilities : Nat
  statusFlags : Nat
  tenant : String
  deriving DecidableEq

/-- Server packets the embedded handlers emit. `writeDataset` /
`writeDatasetBinary` stream many row packets; they are modelled as one
aggregate `rowsPkt` / `rowsBinaryPkt` emission since no claim looks
inside the rows. -/
inductive Packet where
  | ok (affectedRows lastInsertId statusFlags warnings : Nat)
  | errFromError (e : GoError)
  | errPkt (code : Nat) (sqlState msg : String)
  | fields (fs : List GoField)
  | rowsPkt (ds : GoDataset)
  | rowsBinaryPkt (ds : GoDataset)
  | endResult (hasMore : Bool) (affectedRows lastInsertId warnings : Nat)
  | prepareResp (stmtId paramsCount : Nat)
  deriving DecidableEq

/-- Write trace: packets successfully written so far, plus an oracle
giving the outcome of the n-th physical write (`none` = success). -/
structure WCtx where
  emitted : List Packet
  oracle : Nat → Option GoError
  idx : Nat

/-- One buffered packet write: on success the packet joins the trace, on
failure the socket error is surfaced to the handler. -/
def write (p : Packet) (w : WCtx) : WCtx × Option GoError :=
  match w.oracle w.idx with
  | none => (⟨w.emitted ++ [p], w.oracle, w.idx + 1⟩, none)
  | some e => (⟨w.emitted, w.oracle, w.idx + 1⟩, some e)

/-- Bind-variable mapping of a prepared statement; Go's
`make(map[string]proto.Value, n)` is modelled as an empty entry list
remembering its capacity hint. -/
structure BindVarMap where
  cap : Nat
  entries : List (String × Nat)
  deriving DecidableEq

/-- Optimizer hint parsed at prepare time; the payload is opaque. -/
structure Hint where
  value : String
  deriving DecidableEq

/-- Parsed statement handle (`ast.StmtNode`), abstracted to the one
feature `handlePrepare` uses: its hint strings. -/
structure GoAst where
  hints : List String
  deriving DecidableEq

/-- Prepared statement descriptor (`proto.Stmt`). -/
structure Stmt where
  statementID : Nat
  prepareStmt : String
  paramsCount : Nat
  paramsType : List Int
  bindVars : BindVarMap
  hints : List (Option Hint)
  stmtNode : Option GoAst
  deriving DecidableEq

/-- The process-wide statement registry (`sync.Map`), used single-keyed
per connection; an association list is an adequate sequential model. -/
abbrev Registry := List (Nat × Stmt)

/-- Registry `Load`. -/
def regLoad (reg : Registry) (id : Nat) : Option Stmt :=
  match reg with
  | [] => none
  | (k, v) :: rest => if k = id then some v else regLoad rest id

/-- Registry `Store` (overwrites any earlier binding of `id`). -/
def regStore (reg : Registry) (id : Nat) (s : Stmt) : Registry :=
  (id, s) :: reg

/-- Handler outcome: a normal return carrying the optional error, or a
Go panic (nil dereference on a code path missing an early return). -/
inductive HOutcome where
  | ret (e : Option GoError)
  | panicked
  deriving DecidableEq

/-- One executor callback invocation for `COM_QUERY`: the
`(result, warns, failure)` triple handed to the dispatcher's closure. -/
structure CbItem where
  result : Option GoResult
  warns : Nat
  failure : Option GoError
  deriving DecidableEq

/-- Inner `handleOnce` closure of `handleQuery`: emits exactly one of
ERR / OK / (fields + rows + end-of-result) for one callback result,
bracketed by the write-buffering scope. -/
def handleOnce (c : Conn) (result : Option GoResult) (failure : Option GoError)
    (warn : Nat) (hasMore : Bool) (w : WCtx) : WCtx × Option GoError :=
  match failure with
  | some f => write (.errFromError f) w
  | none =>
    match result with
    | none => write (.errFromError (.sql ERBadNullError SSUnknownSQLState "un dataset")) w
    | some r =>
      match r.dataset with
      | (_, some f) => write (.errFromError f) w
      | (none, none) =>
        let statusFlag :=
          if hasMore then c.statusFlags ||| serverMoreResultsExists else c.statusFlags
        write (.ok r.rowsAffected r.lastInsertId statusFlag warn) w
      | (some ds, none) =>
        let z1 := write (.fields ds.fields) w
        match z1.2 with
        | some e => (z1.1, some e)
        | none =>
          let z2 := write (.rowsPkt ds) z1.1
          match z2.2 with
          | some e => (z2.1, some e)
          | none => write (.endResult hasMore 0 0 warn) z2.1

/-- The one-item lookahead loop of `handleQuery`: `prev` holds the
withheld result; each new callback flushes it with `hasMore = true`.
Modelled from the spec: `com_query` delivers the `(result, warns, err)`
items to the callback in arrival order and aborts, returning the
callback's error, as soon as the callback fails. -/
def queryLoop (c : Conn) (items : List CbItem) (prev : Option CbItem) (w : WCtx) :
    WCtx × Option CbItem × Option GoError :=
  match items with
  | [] => (w, prev, none)
  | it :: rest =>
    match prev with
    | none => queryLoop c rest (some it) w
    | some p =>
      let z := handleOnce c p.result p.failure p.warns true w
      match z.2 with
      | some e => (z.1, some p, some e)
      | none => queryLoop c rest (some it) z.1

/-- `handleQuery`: drives the executor callbacks through `queryLoop` and
flushes the withheld final result with `hasMore = false`. `execErr` is
the executor's own completion error when every callback returned nil. -/
def handleQuery (c : Conn) (items : List CbItem) (execErr : Option GoError) (w : WCtx) :
    WCtx × Option GoError :=
  let z := queryLoop c items none w
  match z.2.2 with
  | some e => (z.1, some e)
  | none =>
    match execErr with
    | some e => (z.1, some e)
    | none =>
      match z.2.1 with
      | none => (z.1, none)
      | some p => handleOnce c p.result p.failure p.warns false z.1

/-- `handleInitDB`: schema-use with tenant authorization. The tenant
manager collaborator is summarized by the cluster list it returns for
the connection's tenant, and `executor.ExecuteUseDB` by its error. -/
def handleInitDB (clusters : List String) (useDbErr : Option GoError)
    (c : Conn) (db : String) (w : WCtx) : WCtx × Conn × Option GoError :=
  let allow := clusters.contains db
  if allow then
    let c1 := { c with schema := db }
    match useDbErr with
    | some e => (w, c1, some e)
    | none =>
      let z := write (.ok 0 0 c.statusFlags 0) w
      (z.1, c1, z.2)
  else
    let z := write (.errFromError (.sql ERBadDb "" ("Unknown database '" ++ db ++ "'"))) w
    (z.1, c, z.2)

/-- Go's `%v` rendering of a byte slice, used in ERR messages. -/
def goFormatByteSlice (data : List Nat) : String :=
  "[" ++ String.intercalate " " (data.map toString) ++ "]"

/-- Modelled from the spec: the 2-byte little-endian reader `readUint16`
of the wire codec, which is outside `src/`; it fails when fewer than two
bytes remain at `pos`. -/
def readUint16 (data : List Nat) (pos : Nat) : Option (Nat × Nat) :=
  match data.drop pos with
  | a :: b :: _ => some (a + b * 256, pos + 2)
  | _ => none

/-- The unconditional trailing ERR write at the bottom of
`handleSetOption` (it runs on every path that reaches the end of the
handler, including the success paths). -/
def setOptionTrailing (c : Conn) (data : List Nat) (w : WCtx) : WCtx × Conn × Option GoError :=
  let z := write (.errPkt ERUnknownComError SSUnknownComError
    ("error handling packet: " ++ goFormatByteSlice data)) w
  (z.1, c, z.2)

/-- `handleSetOption`: operation 0 sets `CLIENT_MULTI_STATEMENTS`,
operation 1 clears it, anything else writes ERR; then the end-of-result,
then (faithful to the missing early return in the source) the trailing
ERR packet. -/
def handleSetOption (c : Conn) (data : List Nat) (w : WCtx) : WCtx × Conn × Option GoError :=
  match readUint16 data 1 with
  | none => setOptionTrailing c data w
  | some (operation, _) =>
    if operation = 0 then
      let c1 := { c with capabilities := c.capabilities ||| capabilityClientMultiStatements }
      let z := write (.endResult false 0 0 0) w
      match z.2 with
      | some e => (z.1, c1, some e)
      | none => setOptionTrailing c1 data z.1
    else if operation = 1 then
      let c1 := { c with capabilities := goAndNot32 c.capabilities capabilityClientMultiStatements }
      let z := write (.endResult false 0 0 0) w
      match z.2 with
      | some e => (z.1, c1, some e)
      | none => setOptionTrailing c1 data z.1
    else
      let z := write (.errPkt ERUnknownComError SSUnknownComError
        ("error handling packet: " ++ goFormatByteSlice data)) w
      match z.2 with
      | some e => (z.1, c, some e)
      | none =>
        let z2 := write (.endResult false 0 0 0) z.1
        match z2.2 with
        | some e => (z2.1, c, some e)
        | none => setOptionTrailing c data z2.1

/-- `strings.Count(query, "?")`: for the single-character pattern this is
exactly the number of `?` characters of the raw text. -/
def countQuestionMarks (s : String) : Nat := s.data.count '?'

/-- Go's `uint16(n)` conversion: truncation modulo 2^16. -/
def toUint16 (n : Nat) : Nat := n % 65536

/-- Hint loop of `handlePrepare`: a hint-parse failure writes an ERR to
the client but, lacking an early return, continues the loop with a nil
hint appended; only a failed ERR write aborts the handler. -/
def prepareHintLoop (hintParse : String → Except GoError Hint)
    (hs : List String) (acc : List (Option Hint)) (w : WCtx) :
    WCtx × List (Option Hint) × Option GoError :=
  match hs with
  | [] => (w, acc, none)
  | h :: rest =>
    match hintParse h with
    | .ok ph => prepareHintLoop hintParse rest (acc ++ [some ph]) w
    | .error e =>
      let z := write (.errFromError e) w
      match z.2 with
      | some we => (z.1, acc, some we)
      | none => prepareHintLoop hintParse rest (acc ++ [none]) z.1

/-- `handlePrepare`: the parser collaborator is the `parse` parameter and
the hint parser the `hintParse` parameter; `statementID` is the id freshly
allocated from the atomic counter. A parser error writes an ERR but,
lacking an early return, falls through to `act.Hints()` on the nil
statement, which panics. -/
def handlePrepare (parse : String → Except GoError GoAst)
    (hintParse : String → Except GoError Hint)
    (statementID : Nat) (query : String) (reg : Registry) (w : WCtx) :
    WCtx × Registry × HOutcome :=
  match parse query with
  | .error e =>
    let z := write (.errFromError e) w
    match z.2 with
    | some we => (z.1, reg, .ret (some we))
    | none => (z.1, reg, .panicked)
  | .ok act =>
    let lp := prepareHintLoop hintParse act.hints [] w
    match lp.2.2 with
    | some we => (lp.1, reg, .ret (some we))
    | none =>
      let paramsCount := toUint16 (countQuestionMarks query)
      let stmt : Stmt :=
        if paramsCount > 0 then
          { statementID := statementID, prepareStmt := query,
            paramsCount := paramsCount,
            paramsType := List.replicate paramsCount 0,
            bindVars := ⟨paramsCount, []⟩,
            hints := lp.2.1, stmtNode := some act }
        else
          { statementID := statementID, prepareStmt := query,
            paramsCount := 0, paramsType := [],
            bindVars := ⟨0, []⟩,
            hints := lp.2.1, stmtNode := some act }
      let reg1 := regStore reg statementID stmt
      let z := write (.prepareResp statementID stmt.paramsCount) lp.1
      (z.1, reg1, .ret z.2)

/-- Executor outcome for `COM_STMT_EXECUTE`: the `(result, warn, err)`
triple plus the bind-variable map the executor left on the descriptor
(the executor mutates `BindVars` through the shared pointer). -/
structure ExecOut where
  result : Option GoResult
  warn : Nat
  err : Option GoError
  bindVarsAfter : BindVarMap

/-- Main body of `handleStmtExecute`, before the deferred bind-variable
reset. A registry miss panics on the unchecked `prepare.(*proto.Stmt)`
type assertion; a nil result with nil error panics on `result.Dataset()`. -/
def stmtExecuteBody (parsedId : Nat) (parseErr : Option GoError)
    (exec : Stmt → ExecOut) (c : Conn) (reg : Registry) (w : WCtx) :
    WCtx × Registry × HOutcome :=
  match parseErr with
  | some e =>
    let z := write (.errFromError e) w
    (z.1, reg, .ret z.2)
  | none =>
    match regLoad reg parsedId with
    | none => (w, reg, .panicked)
    | some s =>
      let o := exec s
      let reg1 := regStore reg parsedId { s with bindVars := o.bindVarsAfter }
      match o.err with
      | some e =>
        let z := write (.errFromError e) w
        (z.1, reg1, .ret z.2)
      | none =>
        match o.result with
        | none => (w, reg1, .panicked)
        | some r =>
          match r.dataset with
          | (_, some e) =>
            let z := write (.errFromError e) w
            (z.1, reg1, .ret z.2)
          | (none, none) =>
            let z := write (.ok r.rowsAffected r.lastInsertId c.statusFlags o.warn) w
            (z.1, reg1, .ret z.2)
          | (some ds, none) =>
            let z1 := write (.fields ds.fields) w
            match z1.2 with
            | some e => (z1.1, reg1, .ret (some e))
            | none =>
              let z2 := write (.rowsBinaryPkt ds) z1.1
              match z2.2 with
              | some e => (z2.1, reg1, .ret (some e))
              | none =>
                let z3 := write (.endResult false 0 0 o.warn) z2.1
                (z3.1, reg1, .ret z3.2)

/-- The deferred bind-variable refresh of `handleStmtExecute`: when the
parsed id is nonzero and still registered, replace `BindVars` with a
fresh empty map of capacity `ParamsCount`. Deferred functions run on
every exit, normal return or panic alike. -/
def resetBindVars (id : Nat) (reg : Registry) : Registry :=
  if id = 0 then reg
  else
    match regLoad reg id with
    | some s => regStore reg id { s with bindVars := ⟨s.paramsCount, []⟩ }
    | none => reg

/-- `handleStmtExecute`: the body followed by the deferred reset.
`parsedId` and `parseErr` stand for the result of the wire-codec helper
`parseComStmtExecute`, which is outside `src/`. -/
def handleStmtExecute (parsedId : Nat) (parseErr : Option GoError)
    (exec : Stmt → ExecOut) (c : Conn) (reg : Registry) (w : WCtx) :
    WCtx × Registry × HOutcome :=
  let z := stmtExecuteBody parsedId parseErr exec c reg w
  (z.1, resetBindVars parsedId z.2.1, z.2.2)

/-- Minimal expression node: only its placeholder count is observable to
the embedded operations. -/
structure ExpressionNode where
  cntParams : Nat
  deriving DecidableEq

/-- The `CONVERT`/`CAST` target data type (`ConvertDataType`); the cast
type enum is carried as its ordinal. -/
structure ConvertDataType where
  typ : Nat
  dimension0 : Int
  dimension1 : Int
  charset : String
  deriving DecidableEq

/-- Dynamic content of the `cast interface{}` field: in the source it is
populated with either a charset `string` or a `*ConvertDataType` (a nil
interface is the zero value); a Go interface value carries exactly one
dynamic type. -/
inductive CastValue where
  | charset (s : String)
  | dataType (t : ConvertDataType)
  | nilValue
  deriving DecidableEq

/-- `ast.CastFunction`. -/
structure CastFunction where
  isCast : Bool
  src : ExpressionNode
  cast : CastValue
  deriving DecidableEq

/-- `CastFunction.GetCharset`: the `cast.(string)` type assertion, whose
zero value on failure is the empty string. -/
def CastFunction.GetCharset (c : CastFunction) : String × Bool :=
  match c.cast with
  | .charset s => (s, true)
  | _ => ("", false)

/-- `CastFunction.GetCast`: the `cast.(*ConvertDataType)` type assertion,
whose zero value on failure is the nil pointer. -/
def CastFunction.GetCast (c : CastFunction) : Option ConvertDataType × Bool :=
  match c.cast with
  | .dataType t => (some t, true)
  | _ => (none, false)

/-- Outcome of a scalar-function application: a normal `(value, error)`
return (a nil value is legal) or a panic (out-of-range index). -/
inductive FnOutcome (V E : Type) where
  | ret (v : Option V) (e : Option E)
  | panics
  deriving DecidableEq

/-- A `proto.Valuer` input: evaluating it yields an error or an optional
(possibly nil) value. -/
structure GoValuer (V E : Type) where
  value : Except E (Option V)

/-- The `sinFunc` receiver struct. -/
structure SinFunc where
  deriving DecidableEq

/-- `sinFunc.Apply`: evaluates the first input (panicking if there is
none), propagates its error (`errors.WithStack` preserves the error),
returns `(nil, nil)` on a nil value, and otherwise applies
`NewValueFloat64 ∘ math.Sin ∘ Float64`; the three float collaborators
are parameters since floating point lives outside the dispatcher core. -/
def SinFunc.Apply {V F E : Type} (float64Of : V → F) (mathSin : F → F)
    (newValueFloat64 : F → V) (inputs : List (GoValuer V E)) : FnOutcome V E :=
  match inputs with
  | [] => .panics
  | input :: _ =>
    match input.value with
    | .error e => .ret none (some e)
    | .ok none => .ret none none
    | .ok (some param) => .ret (some (newValueFloat64 (mathSin (float64Of param)))) none

/-- `sinFunc.NumInput`. -/
def SinFunc.NumInput : Nat := 1

/-- A callback item is clean when its error is nil, its result is
non-nil and `result.Dataset()` succeeds — the error-free situation of
the multi-result streaming claim. -/
def cleanItem (it : CbItem) : Bool :=
  it.failure.isNone &&
    match it.result with
    | some r => r.dataset.2.isNone
    | none => false

/-- The packet group one clean callback result produces when every write
succeeds: a lone OK for a write-only result, or fields, rows and an
end-of-result for a dataset result. -/
def onceEmits (c : Conn) (it : CbItem) (hasMore : Bool) : List Packet :=
  match it.result with
  | none => []
  | some r =>
    match r.dataset with
    | (none, _) =>
      [.ok r.rowsAffected r.lastInsertId
        (if hasMore then c.statusFlags ||| serverMoreResultsExists else c.statusFlags) it.warns]
    | (some ds, _) => [.fields ds.fields, .rowsPkt ds, .endResult hasMore 0 0 it.warns]

/-- Packets produced by the lookahead loop once `prev` holds `p` and the
remaining callbacks are `items`: every withheld result flushes with
`hasMore = true`. -/
def loopEmits (c : Conn) (p : CbItem) (items : List CbItem) : List Packet :=
  match items with
  | [] => []
  | it :: rest => onceEmits c p true ++ loopEmits c it rest

/-- The full response trace of an error-free multi-result query: all
results with `hasMore = true` except the last, which closes the response
with `hasMore = false`. -/
def queryEmits (c : Conn) (items : List CbItem) : List Packet :=
  match items with
  | [] => []
  | [it] => onceEmits c it false
  | it :: rest => onceEmits c it true ++ queryEmits c rest

/-- The has-more marker a terminating packet carries: for an OK packet
the `SERVER_MORE_RESULTS_EXISTS` bit (bit 3) of its status flags, for an
end-of-result its `hasMore` flag; other packets are not terminators. -/
def packetMoreFlag : Packet → Option Bool
  | .ok _ _ st _ => some (st.testBit 3)
  | .endResult hm _ _ _ => some hm
  | _ => none

/-- Has-more markers of the terminating packets of a trace, in order. -/
def terminalFlags (ps : List Packet) : List Bool := ps.filterMap packetMoreFlag

/-- Recognizes an OK packet. -/
def isOkPacket : Packet → Bool
  | .ok _ _ _ _ => true
  | _ => false

/-- A write whose oracle entry is clear succeeds and appends its packet. -/
theorem write_ok (p : Packet) (w : WCtx) (h : w.oracle w.idx = none) :
    write p w = (⟨w.emitted ++ [p], w.oracle, w.idx + 1⟩, none) := by
  simp [write, h]

/-- C9: the `cast` field of a `CastFunction` behaves as a tagged variant:
`GetCharset` and `GetCast` never both report `ok = true` on one value. -/
theorem cast_variant_exclusive (c : CastFunction) :
    c.GetCharset.2 = false ∨ c.GetCast.2 = false := by
  cases h : c.cast <;> simp [CastFunction.GetCharset, CastFunction.GetCast, h]

/-- C10: `sinFunc.Apply` propagates an evaluation error of its first
input as `(nil, err)`, maps a nil first input to `(nil, nil)` without
computing a sine, and `sinFunc.NumInput` returns 1. -/
theorem sin_apply_behavior {V F E : Type} (float64Of : V → F) (mathSin : F → F)
    (newValueFloat64 : F → V) (v : GoValuer V E) (rest : List (GoValuer V E)) :
    (∀ e : E, v.value = .error e →
      SinFunc.Apply float64Of mathSin newValueFloat64 (v :: rest) = .ret none (some e)) ∧
    (v.value = .ok none →
      SinFunc.Apply float64Of mathSin newValueFloat64 (v :: rest) = .ret none none) ∧
    SinFunc.NumInput = 1 := by
  refine ⟨fun e he => ?_, fun he => ?_, rfl⟩ <;> simp [SinFunc.Apply, he]

/-- Witness for C10 at concrete inputs over `Nat` carriers. -/
theorem sin_apply_behavior_witness :
    @SinFunc.Apply Nat Nat Nat id id id [⟨.error 7⟩] = .ret none (some 7) ∧
    @SinFunc.Apply Nat Nat Nat id id id [⟨.ok none⟩] = .ret none none :=
  ⟨(sin_apply_behavior id id id ⟨.error 7⟩ []).1 7 rfl,
   (sin_apply_behavior id id id ⟨.ok none⟩ []).2.1 rfl⟩

/-- C8: inside `handleQuery`, a result whose callback error is non-nil
yields exactly one ERR packet built from that error and nothing else,
and a nil result with a nil error yields exactly one ERR packet with
code `ER_BAD_NULL_ERROR` and nothing else. -/
theorem query_callback_error_paths (c : Conn) (warn : Nat) (hm : Bool) (w : WCtx)
    (ho : ∀ n, w.oracle n = none) :
    (∀ (result : Option GoResult) (f : GoError),
      handleOnce c result (some f) warn hm w =
        (⟨w.emitted ++ [.errFromError f], w.oracle, w.idx + 1⟩, none)) ∧
    handleOnce c none none warn hm w =
      (⟨w.emitted ++ [.errFromError (.sql ERBadNullError SSUnknownSQLState "un dataset")],
        w.oracle, w.idx + 1⟩, none) := by
  constructor
  · intro result f
    simp [handleOnce, write, ho]
  · simp [handleOnce, write, ho]

/-- Witness for C8 at a concrete connection, error and trace. -/
theorem query_callback_error_paths_witness :
    handleOnce ⟨"", 0, 0, ""⟩ (some ⟨(none, none), 1, 2⟩) (some (.generic "boom")) 0 true
        ⟨[], fun _ => none, 0⟩ =
      (⟨[.errFromError (.generic "boom")], fun _ => none, 1⟩, none) ∧
    handleOnce ⟨"", 0, 0, ""⟩ none none 0 true ⟨[], fun _ => none, 0⟩ =
      (⟨[.errFromError (.sql ERBadNullError SSUnknownSQLState "un dataset")],
        fun _ => none, 1⟩, none) :=
  ⟨(query_callback_error_paths ⟨"", 0, 0, ""⟩ 0 true ⟨[], fun _ => none, 0⟩
      (fun _ => rfl)).1 (some ⟨(none, none), 1, 2⟩) (.generic "boom"),
   (query_callback_error_paths ⟨"", 0, 0, ""⟩ 0 true ⟨[], fun _ => none, 0⟩
      (fun _ => rfl)).2⟩

/-- C5: `handleInitDB` on a schema outside the tenant's cluster list
writes exactly one ERR packet with code `ER_BAD_DB_ERROR` and message
`Unknown database '<name>'`, leaves the connection's schema unchanged,
sends no OK packet, and returns nil unless the ERR write itself fails
(in which case it returns that write error). -/
theorem initdb_denied_behavior (clusters : List String) (useDbErr : Option GoError)
    (c : Conn) (db : String) (w : WCtx)
    (hdeny : clusters.contains db = false) :
    (handleInitDB clusters useDbErr c db w).2.1 = c ∧
    (handleInitDB clusters useDbErr c db w).2.2 = w.oracle w.idx ∧
    (handleInitDB clusters useDbErr c db w).1.emitted = w.emitted ++
      (match w.oracle w.idx with
       | none => [.errFromError (.sql ERBadDb "" ("Unknown database '" ++ db ++ "'"))]
       | some _ => []) ∧
    (∀ p ∈ (handleInitDB clusters useDbErr c db w).1.emitted,
      isOkPacket p = true → p ∈ w.emitted) := by
  have key : handleInitDB clusters useDbErr c db w =
      (((write (.errFromError (.sql ERBadDb "" ("Unknown database '" ++ db ++ "'"))) w).1), c,
        (write (.errFromError (.sql ERBadDb "" ("Unknown database '" ++ db ++ "'"))) w).2) := by
    simp only [handleInitDB, hdeny]
    rfl
  rw [key]
  cases hor : w.oracle w.idx with
  | none =>
    refine ⟨rfl, ?_, ?_, ?_⟩ <;> simp [write, hor]
    intro p hp hok
    rcases hp with hp | hp
    · exact hp
    · simp [hp, isOkPacket] at hok
  | some e =>
    refine ⟨rfl, ?_, ?_, ?_⟩ <;> simp [write, hor]
    intro p hp hok
    exact hp

/-- Witness for C5: spec scenario S2, tenant clusters `["app"]` and
schema `"secret"`, with succeeding writes. -/
theorem initdb_denied_behavior_witness :
    (handleInitDB ["app"] none ⟨"db0", 0, 0, "t"⟩ "secret" ⟨[], fun _ => none, 0⟩).2.1 =
      ⟨"db0", 0, 0, "t"⟩ ∧
    (handleInitDB ["app"] none ⟨"db0", 0, 0, "t"⟩ "secret" ⟨[], fun _ => none, 0⟩).2.2 =
      (fun _ => none : Nat → Option GoError) 0 ∧
    (handleInitDB ["app"] none ⟨"db0", 0, 0, "t"⟩ "secret" ⟨[], fun _ => none, 0⟩).1.emitted =
      [] ++
      (match (fun _ => none : Nat → Option GoError) 0 with
       | none => [.errFromError (.sql ERBadDb "" ("Unknown database '" ++ "secret" ++ "'"))]
       | some _ => []) ∧
    (∀ p ∈ (handleInitDB ["app"] none ⟨"db0", 0, 0, "t"⟩ "secret"
        ⟨[], fun _ => none, 0⟩).1.emitted,
      isOkPacket p = true → p ∈ ([] : List Packet)) :=
  initdb_denied_behavior ["app"] none ⟨"db0", 0, 0, "t"⟩ "secret" ⟨[], fun _ => none, 0⟩
    (by decide)

/-- C7: for a well-formed 2-byte operation, `handleSetOption` sets the
`CLIENT_MULTI_STATEMENTS` capability bit (bit 16) on operation 0, clears
it on operation 1, emits the end-of-result on both success paths, and
emits an ERR packet with code `ER_UNKNOWN_COM_ERROR` on any other
operation value. -/
theorem set_option_semantics (c : Conn) (data : List Nat) (w : WCtx) (op pos : Nat)
    (hread : readUint16 data 1 = some (op, pos))
    (ho : ∀ n, w.oracle n = none) :
    (op = 0 →
      (handleSetOption c data w).2.1.capabilities.testBit 16 = true ∧
      Packet.endResult false 0 0 0 ∈ (handleSetOption c data w).1.emitted) ∧
    (op = 1 →
      (handleSetOption c data w).2.1.capabilities.testBit 16 = false ∧
      Packet.endResult false 0 0 0 ∈ (handleSetOption c data w).1.emitted) ∧
    (op ≠ 0 → op ≠ 1 →
      Packet.errPkt ERUnknownComError SSUnknownComError
        ("error handling packet: " ++ goFormatByteSlice data) ∈
        (handleSetOption c data w).1.emitted) := by
  refine ⟨fun h0 => ?_, fun h1 => ?_, fun h0 h1 => ?_⟩
  · subst h0
    simp [handleSetOption, hread, setOptionTrailing, write, ho,
      capabilityClientMultiStatements, Nat.testBit_lor]
    exact Or.inr (by decide)
  · subst h1
    simp [handleSetOption, hread, setOptionTrailing, write, ho,
      capabilityClientMultiStatements, goAndNot32, Nat.testBit_land, Nat.testBit_xor]
    exact fun _ => by decide
  · simp [handleSetOption, hread, setOptionTrailing, write, ho, h0, h1]

/-- Witness for C7: operation 0 on a fresh connection sets the
multi-statements capability bit and emits the end-of-result. -/
theorem set_option_semantics_witness :
    (handleSetOption ⟨"", 0, 0, ""⟩ [27, 0, 0] ⟨[], fun _ => none, 0⟩).2.1.capabilities.testBit 16
      = true ∧
    Packet.endResult false 0 0 0 ∈
      (handleSetOption ⟨"", 0, 0, ""⟩ [27, 0, 0] ⟨[], fun _ => none, 0⟩).1.emitted :=
  (set_option_semantics ⟨"", 0, 0, ""⟩ [27, 0, 0] ⟨[], fun _ => none, 0⟩ 0 3 rfl
    (fun _ => rfl)).1 rfl

/-- C2 failing input: a successful `COM_SET_OPTION` (operation 0, every
write succeeding) makes the handler emit two response packets — the
end-of-result and then, missing an early return, the unconditional
trailing ERR — where the claim requires exactly one response. -/
theorem set_option_double_response :
    (handleSetOption ⟨"", 0, 0, ""⟩ [27, 0, 0] ⟨[], fun _ => none, 0⟩).1.emitted =
      [.endResult false 0 0 0,
       .errPkt ERUnknownComError SSUnknownComError
         ("error handling packet: " ++ goFormatByteSlice [27, 0, 0])] ∧
    (handleSetOption ⟨"", 0, 0, ""⟩ [27, 0, 0] ⟨[], fun _ => none, 0⟩).1.emitted.length = 2 :=
  ⟨rfl, rfl⟩

/-- C3 failing inputs: after a parser error `handlePrepare` writes the
ERR but does not stop — it reaches the hint extraction on the nil
statement and panics; after a hint-parse error it writes the ERR but
still stores the descriptor and writes the prepare response. -/
theorem prepare_missing_early_return :
    ((handlePrepare (fun _ => .error (.generic "syntax error")) (fun _ => .ok ⟨""⟩)
        1 "!!!" [] ⟨[], fun _ => none, 0⟩).2.2 = HOutcome.panicked) ∧
    ((handlePrepare (fun _ => .error (.generic "syntax error")) (fun _ => .ok ⟨""⟩)
        1 "!!!" [] ⟨[], fun _ => none, 0⟩).1.emitted =
      [.errFromError (.generic "syntax error")]) ∧
    ((handlePrepare (fun _ => .ok ⟨["bad"]⟩) (fun _ => .error (.generic "hint error"))
        2 "select 1" [] ⟨[], fun _ => none, 0⟩).1.emitted =
      [.errFromError (.generic "hint error"), .prepareResp 2 0]) ∧
    ((regLoad (handlePrepare (fun _ => .ok ⟨["bad"]⟩) (fun _ => .error (.generic "hint error"))
        2 "select 1" [] ⟨[], fun _ => none, 0⟩).2.1 2).isSome = true) ∧
    ((handlePrepare (fun _ => .ok ⟨["bad"]⟩) (fun _ => .error (.generic "hint error"))
        2 "select 1" [] ⟨[], fun _ => none, 0⟩).2.2 = HOutcome.ret none) :=
  ⟨rfl, rfl, rfl, rfl, rfl⟩

/-- With every physical write succeeding, the hint loop of
`handlePrepare` never aborts the handler, whatever the hint parser
answers. -/
theorem prepareHintLoop_ok (hintParse : String → Except GoError Hint) (hs : List String) :
    ∀ (acc : List (Option Hint)) (w : WCtx), (∀ n, w.oracle n = none) →
    ∃ w' acc', prepareHintLoop hintParse hs acc w = (w', acc', none) ∧
      w'.oracle = w.oracle := by
  induction hs with
  | nil => exact fun acc w _ => ⟨w, acc, rfl, rfl⟩
  | cons h rest ih =>
    intro acc w ho
    cases hh : hintParse h with
    | ok ph =>
      obtain ⟨w', acc', heq, hor⟩ := ih (acc ++ [some ph]) w ho
      exact ⟨w', acc', by simp [prepareHintLoop, hh, heq], hor⟩
    | error e =>
      obtain ⟨w', acc', heq, hor⟩ :=
        ih (acc ++ [none]) ⟨w.emitted ++ [.errFromError e], w.oracle, w.idx + 1⟩ ho
      refine ⟨w', acc', ?_, hor⟩
      simp [prepareHintLoop, hh, write_ok _ _ (ho w.idx), heq]

/-- When the SQL text parses and every write succeeds, `handlePrepare`
stores a descriptor under the allocated id whose `paramsCount` is the
raw `?` count truncated to `uint16` and whose `paramsType` has exactly
that length. -/
theorem handlePrepare_stores (parse : String → Except GoError GoAst)
    (hintParse : String → Except GoError Hint) (sid : Nat) (query : String)
    (reg : Registry) (w : WCtx) (ast : GoAst)
    (hp : parse query = .ok ast) (ho : ∀ n, w.oracle n = none) :
    ∃ stmt, regLoad (handlePrepare parse hintParse sid query reg w).2.1 sid = some stmt ∧
      stmt.paramsCount = toUint16 (countQuestionMarks query) ∧
      stmt.paramsType.length = stmt.paramsCount ∧
      stmt.prepareStmt = query := by
  obtain ⟨w', acc', hloop, hor⟩ := prepareHintLoop_ok hintParse ast.hints [] w ho
  by_cases hpc : toUint16 (countQuestionMarks query) > 0
  · refine ⟨⟨sid, query, toUint16 (countQuestionMarks query),
      List.replicate (toUint16 (countQuestionMarks query)) 0,
      ⟨toUint16 (countQuestionMarks query), []⟩, acc', some ast⟩, ?_, rfl, by simp, rfl⟩
    simp [handlePrepare, hp, hloop, hpc, regLoad, regStore]
  · have hz : toUint16 (countQuestionMarks query) = 0 := by omega
    refine ⟨⟨sid, query, 0, [], ⟨0, []⟩, acc', some ast⟩, ?_, by rw [hz], rfl, rfl⟩
    simp [handlePrepare, hp, hloop, hpc, regLoad, regStore]

/-- C6 (amended): the stored descriptor's `paramsCount` equals the
number of `?` occurrences of the raw SQL text reduced modulo 2^16 (the
`uint16` conversion), and `paramsType` always has length `paramsCount`. -/
theorem prepare_params_count_amended (parse : String → Except GoError GoAst)
    (hintParse : String → Except GoError Hint) (sid : Nat) (query : String)
    (reg : Registry) (w : WCtx) (ast : GoAst)
    (hp : parse query = .ok ast) (ho : ∀ n, w.oracle n = none) :
    ∃ stmt, regLoad (handlePrepare parse hintParse sid query reg w).2.1 sid = some stmt ∧
      stmt.paramsCount = countQuestionMarks query % 65536 ∧
      stmt.paramsType.length = stmt.paramsCount ∧
      stmt.prepareStmt = query :=
  handlePrepare_stores parse hintParse sid query reg w ast hp ho

/-- Witness for C6 (amended): spec scenario S3, preparing
`SELECT ?, ?+?` stores `paramsCount = 3` with three parameter types. -/
theorem prepare_params_count_amended_witness :
    countQuestionMarks "SELECT ?, ?+?" % 65536 = 3 ∧
    ∃ stmt, regLoad ((handlePrepare (fun _ => .ok ⟨[]⟩) (fun _ => .ok ⟨""⟩) 1
        "SELECT ?, ?+?" [] ⟨[], fun _ => none, 0⟩).2.1) 1 = some stmt ∧
      stmt.paramsCount = countQuestionMarks "SELECT ?, ?+?" % 65536 ∧
      stmt.paramsType.length = stmt.paramsCount ∧
      stmt.prepareStmt = "SELECT ?, ?+?" :=
  ⟨by decide,
   prepare_params_count_amended (fun _ => .ok ⟨[]⟩) (fun _ => .ok ⟨""⟩) 1
     "SELECT ?, ?+?" [] ⟨[], fun _ => none, 0⟩ ⟨[]⟩ rfl (fun _ => rfl)⟩

/-- C6 counterexample: a SQL text of 65536 `?` characters parses (with a
parser accepting it), yet the stored descriptor carries `paramsCount = 0`
and an empty `paramsType` — the `uint16` conversion truncates the
verbatim count, so `paramsCount` does not equal the number of `?`
occurrences. -/
theorem prepare_params_count_counterexample :
    countQuestionMarks (String.mk (List.replicate 65536 '?')) = 65536 ∧
    ∃ stmt,
      regLoad ((handlePrepare (fun _ => .ok ⟨[]⟩) (fun _ => .ok ⟨""⟩) 1
        (String.mk (List.replicate 65536 '?')) [] ⟨[], fun _ => none, 0⟩).2.1) 1 = some stmt ∧
      stmt.paramsCount = 0 ∧ stmt.paramsType = [] := by
  have hcount : countQuestionMarks (String.mk (List.replicate 65536 '?')) = 65536 := by
    show List.count '?' (List.replicate 65536 '?') = 65536
    exact List.count_replicate_self '?' 65536
  obtain ⟨stmt, h1, h2, h3, _⟩ := handlePrepare_stores (fun _ => .ok ⟨[]⟩) (fun _ => .ok ⟨""⟩)
    1 (String.mk (List.replicate 65536 '?')) [] ⟨[], fun _ => none, 0⟩ ⟨[]⟩ rfl (fun _ => rfl)
  have h2' : stmt.paramsCount = 0 := by
    rw [h2, hcount]
    decide
  refine ⟨hcount, stmt, h1, h2', ?_⟩
  rw [h2'] at h3
  exact List.length_eq_zero.mp h3

/-- The main body of `handleStmtExecute` either leaves the registry
untouched or overwrites the looked-up descriptor with the executor's
bind-variable map; in particular it never changes `paramsCount`. -/
theorem stmtExecuteBody_registry (parsedId : Nat) (parseErr : Option GoError)
    (exec : Stmt → ExecOut) (c : Conn) (reg : Registry) (w : WCtx) :
    (stmtExecuteBody parsedId parseErr exec c reg w).2.1 = reg ∨
    ∃ s0, regLoad reg parsedId = some s0 ∧
      (stmtExecuteBody parsedId parseErr exec c reg w).2.1 =
        regStore reg parsedId { s0 with bindVars := (exec s0).bindVarsAfter } := by
  unfold stmtExecuteBody
  cases parseErr with
  | some e => exact Or.inl rfl
  | none =>
    cases hl : regLoad reg parsedId with
    | none => exact Or.inl rfl
    | some s0 =>
      refine Or.inr ⟨s0, rfl, ?_⟩
      cases he : (exec s0).err with
      | some e => simp [he]
      | none =>
        cases hr : (exec s0).result with
        | none => simp [he, hr]
        | some r =>
          rcases hd : r.dataset with ⟨ds?, e?⟩
          cases e? with
          | some e => simp [he, hr, hd]
          | none =>
            cases ds? with
            | none => simp [he, hr, hd]
            | some ds =>
              cases h1 : (write (.fields ds.fields) w).2 with
              | some e => simp [he, hr, hd, h1]
              | none =>
                cases h2 : (write (.rowsBinaryPkt ds) (write (.fields ds.fields) w).1).2 with
                | some e => simp [he, hr, hd, h1, h2]
                | none => simp [he, hr, hd, h1, h2]

/-- C4: after `handleStmtExecute` returns, whatever the executor or the
writes did, the registered descriptor's bind variables are a fresh empty
mapping whose capacity is the descriptor's `paramsCount`. The hypothesis
`parsedId ≠ 0` reflects that registered statement ids are allocated from
the atomic counter starting at 1. -/
theorem stmt_execute_bindvars_reset (parsedId : Nat) (parseErr : Option GoError)
    (exec : Stmt → ExecOut) (c : Conn) (reg : Registry) (w : WCtx) (s0 : Stmt)
    (hload : regLoad reg parsedId = some s0) (hid : parsedId ≠ 0) :
    ∃ s', regLoad (handleStmtExecute parsedId parseErr exec c reg w).2.1 parsedId = some s' ∧
      s'.bindVars = ⟨s'.paramsCount, []⟩ ∧ s'.paramsCount = s0.paramsCount := by
  have key : ∃ s1, regLoad (stmtExecuteBody parsedId parseErr exec c reg w).2.1 parsedId =
      some s1 ∧ s1.paramsCount = s0.paramsCount := by
    rcases stmtExecuteBody_registry parsedId parseErr exec c reg w with h | ⟨t, hload', h⟩
    · exact ⟨s0, by rw [h, hload], rfl⟩
    · refine ⟨{ t with bindVars := (exec t).bindVarsAfter }, by simp [h, regLoad, regStore], ?_⟩
      rw [hload'] at hload
      cases hload
      rfl
  obtain ⟨s1, h1, h2⟩ := key
  simp only [handleStmtExecute, resetBindVars, if_neg hid, h1]
  exact ⟨{ s1 with bindVars := ⟨s1.paramsCount, []⟩ }, by simp [regLoad, regStore], rfl, h2⟩

/-- Witness for C4: a registered descriptor with three parameters and a
dirty bind-variable map, an executor that fails after mutating the map,
and succeeding writes. -/
theorem stmt_execute_bindvars_reset_witness :
    ∃ s', regLoad (handleStmtExecute 5 none
        (fun _ => ⟨none, 0, some (.generic "boom"), ⟨9, [("k", 1)]⟩⟩) ⟨"", 0, 0, ""⟩
        [(5, ⟨5, "SELECT ?, ?, ?", 3, [0, 0, 0], ⟨9, [("x", 0)]⟩, [], none⟩)]
        ⟨[], fun _ => none, 0⟩).2.1 5 = some s' ∧
      s'.bindVars = ⟨s'.paramsCount, []⟩ ∧
      s'.paramsCount = (⟨5, "SELECT ?, ?, ?", 3, [0, 0, 0], ⟨9, [("x", 0)]⟩, [], none⟩ :
        Stmt).paramsCount :=
  stmt_execute_bindvars_reset 5 none
    (fun _ => ⟨none, 0, some (.generic "boom"), ⟨9, [("k", 1)]⟩⟩) ⟨"", 0, 0, ""⟩
    [(5, ⟨5, "SELECT ?, ?, ?", 3, [0, 0, 0], ⟨9, [("x", 0)]⟩, [], none⟩)]
    ⟨[], fun _ => none, 0⟩ ⟨5, "SELECT ?, ?, ?", 3, [0, 0, 0], ⟨9, [("x", 0)]⟩, [], none⟩
    (by simp [regLoad]) (by decide)

/-- Bit 3 of the `SERVER_MORE_RESULTS_EXISTS` mask is set. -/
theorem testBit_more_bit : Nat.testBit serverMoreResultsExists 3 = true := by decide

/-- `terminalFlags` distributes over trace concatenation. -/
theorem terminalFlags_append (a b : List Packet) :
    terminalFlags (a ++ b) = terminalFlags a ++ terminalFlags b :=
  List.filterMap_append a b packetMoreFlag

/-- A clean callback result handled with every write succeeding emits
exactly its packet group and reports no error. -/
theorem handleOnce_clean (c : Conn) (it : CbItem) (hm : Bool) (w : WCtx)
    (hcl : cleanItem it = true) (ho : ∀ n, w.oracle n = none) :
    handleOnce c it.result it.failure it.warns hm w =
      (⟨w.emitted ++ onceEmits c it hm, w.oracle, w.idx + (onceEmits c it hm).length⟩, none) := by
  obtain ⟨r?, warns, f?⟩ := it
  cases f? with
  | some f => simp [cleanItem] at hcl
  | none =>
    cases r? with
    | none => simp [cleanItem] at hcl
    | some r =>
      obtain ⟨⟨ds?, e?⟩, ra, li⟩ := r
      cases e? with
      | some e => simp [cleanItem] at hcl
      | none =>
        cases ds? with
        | none => simp [handleOnce, onceEmits, write, ho]
        | some ds => simp [handleOnce, onceEmits, write, ho]

/-- The packet group of a clean result has exactly one terminating
packet and its has-more marker is the `hasMore` argument (for the OK
path this uses that the connection's own more-results bit is clear). -/
theorem terminalFlags_onceEmits (c : Conn) (it : CbItem) (hm : Bool)
    (hcl : cleanItem it = true) (hst : c.statusFlags.testBit 3 = false) :
    terminalFlags (onceEmits c it hm) = [hm] := by
  obtain ⟨r?, warns, f?⟩ := it
  cases f? with
  | some f => simp [cleanItem] at hcl
  | none =>
    cases r? with
    | none => simp [cleanItem] at hcl
    | some r =>
      obtain ⟨⟨ds?, e?⟩, ra, li⟩ := r
      cases e? with
      | some e => simp [cleanItem] at hcl
      | none =>
        cases ds? with
        | none =>
          cases hm with
          | true =>
            simp [onceEmits, terminalFlags, packetMoreFlag, Nat.testBit_lor, testBit_more_bit]
          | false => simp [onceEmits, terminalFlags, packetMoreFlag, hst]
        | some ds => simp [onceEmits, terminalFlags, packetMoreFlag]

/-- All-clean lists stay clean at their last element. -/
theorem all_getLastD {α : Type} (f : α → Bool) :
    ∀ (l : List α) (d : α), l.all f = true → f d = true → f (l.getLastD d) = true := by
  intro l
  induction l with
  | nil => exact fun d _ hd => hd
  | cons a rest ih =>
    intro d hall _
    simp only [List.all_cons, Bool.and_eq_true] at hall
    rw [List.getLastD_cons]
    exact ih a hall.2 hall.1

/-- With clean items and succeeding writes, the lookahead loop flushes
every withheld result with `hasMore = true`, ends holding the last item,
and reports no error. -/
theorem queryLoop_clean (c : Conn) (items : List CbItem) :
    ∀ (p : CbItem) (w : WCtx), items.all cleanItem = true → cleanItem p = true →
    (∀ n, w.oracle n = none) →
    ∃ w', queryLoop c items (some p) w = (w', some (items.getLastD p), none) ∧
      w'.emitted = w.emitted ++ loopEmits c p items ∧ w'.oracle = w.oracle := by
  induction items with
  | nil =>
    intro p w _ _ _
    exact ⟨w, rfl, by simp [loopEmits], rfl⟩
  | cons it rest ih =>
    intro p w hall hp ho
    simp only [List.all_cons, Bool.and_eq_true] at hall
    have h1 := handleOnce_clean c p true w hp ho
    obtain ⟨w', heq, hem, hor⟩ := ih it
      ⟨w.emitted ++ onceEmits c p true, w.oracle, w.idx + (onceEmits c p true).length⟩
      hall.2 hall.1 ho
    refine ⟨w', ?_, ?_, by rw [hor]⟩
    · have hstep : queryLoop c (it :: rest) (some p) w =
          queryLoop c rest (some it)
            ⟨w.emitted ++ onceEmits c p true, w.oracle, w.idx + (onceEmits c p true).length⟩ := by
        simp [queryLoop, h1]
      rw [hstep, heq, List.getLastD_cons]
    · rw [hem]
      simp [loopEmits]

/-- The full response trace decomposes as the loop part plus the final
flush of the last result. -/
theorem queryEmits_cons_eq (c : Conn) :
    ∀ (items : List CbItem) (p : CbItem),
    queryEmits c (p :: items) =
      loopEmits c p items ++ onceEmits c (items.getLastD p) false := by
  intro items
  induction items with
  | nil => intro p; simp [queryEmits, loopEmits]
  | cons it rest ih =>
    intro p
    rw [show queryEmits c (p :: it :: rest) = onceEmits c p true ++ queryEmits c (it :: rest)
      from rfl]
    rw [ih it, List.getLastD_cons]
    rw [show loopEmits c p (it :: rest) = onceEmits c p true ++ loopEmits c it rest from rfl]
    rw [List.append_assoc]

/-- For a nonempty all-clean callback sequence the terminating packets
carry exactly N−1 set has-more markers followed by one cleared marker. -/
theorem terminalFlags_queryEmits (c : Conn) (hst : c.statusFlags.testBit 3 = false) :
    ∀ (items : List CbItem), items ≠ [] → items.all cleanItem = true →
    terminalFlags (queryEmits c items) =
      List.replicate (items.length - 1) true ++ [false] := by
  intro items
  induction items with
  | nil => exact fun h => absurd rfl h
  | cons it rest ih =>
    intro _ hall
    simp only [List.all_cons, Bool.and_eq_true] at hall
    cases rest with
    | nil =>
      rw [show queryEmits c [it] = onceEmits c it false from rfl]
      rw [terminalFlags_onceEmits c it false hall.1 hst]
      rfl
    | cons b rest' =>
      rw [show queryEmits c (it :: b :: rest') =
        onceEmits c it true ++ queryEmits c (b :: rest') from rfl]
      rw [terminalFlags_append, terminalFlags_onceEmits c it true hall.1 hst]
      rw [ih (by simp) (by simpa using hall.2)]
      simp [List.replicate_succ]

/-- C1: an error-free `COM_QUERY` whose executor fires the callback
N ≥ 1 times makes the dispatcher return nil and emit exactly the per-
result packet groups in callback order, whose N terminating packets
carry `SERVER_MORE_RESULTS_EXISTS` on the first N−1 responses and not on
the Nth. -/
theorem query_multi_result_flags (c : Conn) (items : List CbItem) (w : WCtx)
    (hne : items ≠ [])
    (hcl : items.all cleanItem = true)
    (ho : ∀ n, w.oracle n = none)
    (hst : c.statusFlags.testBit 3 = false) :
    (handleQuery c items none w).2 = none ∧
    (handleQuery c items none w).1.emitted = w.emitted ++ queryEmits c items ∧
    terminalFlags (queryEmits c items) =
      List.replicate (items.length - 1) true ++ [false] ∧
    (terminalFlags (queryEmits c items)).length = items.length := by
  cases items with
  | nil => exact absurd rfl hne
  | cons p rest =>
    have hall : cleanItem p = true ∧ rest.all cleanItem = true := by
      simpa [List.all_cons] using hcl
    obtain ⟨w', heq, hem, hor⟩ := queryLoop_clean c rest p w hall.2 hall.1 ho
    have hql : queryLoop c (p :: rest) none w = (w', some (rest.getLastD p), none) := heq
    have hlast : cleanItem (rest.getLastD p) = true :=
      all_getLastD cleanItem rest p hall.2 hall.1
    have hOnce := handleOnce_clean c (rest.getLastD p) false w' hlast
      (by rw [hor]; exact ho)
    have hfull : handleQuery c (p :: rest) none w =
        (⟨w'.emitted ++ onceEmits c (rest.getLastD p) false, w'.oracle,
          w'.idx + (onceEmits c (rest.getLastD p) false).length⟩, none) := by
      unfold handleQuery
      rw [hql]
      exact hOnce
    refine ⟨?_, ?_, terminalFlags_queryEmits c hst (p :: rest) hne hcl, ?_⟩
    · rw [hfull]
    · rw [hfull]
      show w'.emitted ++ onceEmits c (rest.getLastD p) false = _
      rw [hem, queryEmits_cons_eq c rest p, List.append_assoc]
    · rw [terminalFlags_queryEmits c hst (p :: rest) hne hcl]
      simp

/-- Witness for C1: spec scenario S5 shape — two callbacks, a write-only
OK result followed by a dataset result, on a connection with a clear
status word and succeeding writes. -/
theorem query_multi_result_flags_witness :
    (handleQuery ⟨"", 0, 0, ""⟩
        [⟨some ⟨(none, none), 2, 7⟩, 1, none⟩, ⟨some ⟨(some ⟨["a"]⟩, none), 0, 0⟩, 0, none⟩]
        none ⟨[], fun _ => none, 0⟩).2 = none ∧
    (handleQuery ⟨"", 0, 0, ""⟩
        [⟨some ⟨(none, none), 2, 7⟩, 1, none⟩, ⟨some ⟨(some ⟨["a"]⟩, none), 0, 0⟩, 0, none⟩]
        none ⟨[], fun _ => none, 0⟩).1.emitted =
      [] ++ queryEmits ⟨"", 0, 0, ""⟩
        [⟨some ⟨(none, none), 2, 7⟩, 1, none⟩, ⟨some ⟨(some ⟨["a"]⟩, none), 0, 0⟩, 0, none⟩] ∧
    terminalFlags (queryEmits ⟨"", 0, 0, ""⟩
        [⟨some ⟨(none, none), 2, 7⟩, 1, none⟩, ⟨some ⟨(some ⟨["a"]⟩, none), 0, 0⟩, 0, none⟩]) =
      List.replicate (([⟨some ⟨(none, none), 2, 7⟩, 1, none⟩,
        (⟨some ⟨(some ⟨["a"]⟩, none), 0, 0⟩, 0, none⟩ : CbItem)]).length - 1) true ++ [false] ∧
    (terminalFlags (queryEmits ⟨"", 0, 0, ""⟩
        [⟨some ⟨(none, none), 2, 7⟩, 1, none⟩,
         ⟨some ⟨(some ⟨["a"]⟩, none), 0, 0⟩, 0, none⟩])).length =
      ([⟨some ⟨(none, none), 2, 7⟩, 1, none⟩,
        (⟨some ⟨(some ⟨["a"]⟩, none), 0, 0⟩, 0, none⟩ : CbItem)]).length :=
  query_multi_result_flags ⟨"", 0, 0, ""⟩
    [⟨some ⟨(none, none), 2, 7⟩, 1, none⟩, ⟨some ⟨(some ⟨["a"]⟩, none), 0, 0⟩, 0, none⟩]
    ⟨[], fun _ => none, 0⟩ (by decide) (by decide) (fun _ => rfl) (by decide)
